import Mathlib

/-!
Verification of the freight-dashboard normalization and aggregation core
(`src/app.js`).  The JavaScript row records, the field-resolution chains,
the KPI/chart aggregation functions and the insight conditions are given a
shallow embedding below; numbers are modelled as exact rationals (finite
IEEE doubles), with NaN tracked explicitly where the code can produce it.
-/

/-- A JavaScript value as it can appear in a decoded spreadsheet row.
Numbers are finite rationals; NaN is a separate constructor. -/
inductive JSVal where
  | num (q : ℚ)
  | nan
  | str (s : String)
  | bool (b : Bool)
  | null
  | undefined
deriving DecidableEq, Repr

/-- JavaScript truthiness: 0, NaN, the empty string, false, null and
undefined are falsy, everything else is truthy. -/
def truthy : JSVal → Bool
  | .num q => decide (q ≠ 0)
  | .nan => false
  | .str s => decide (s ≠ "")
  | .bool b => b
  | .null => false
  | .undefined => false

/-- A row is an open mapping from column names to values (property order
preserved, keys unique as in a JS object). -/
abbrev Row := List (String × JSVal)

/-- Property access `row[k]`: exact, case-sensitive key equality; absent
keys give `undefined`. -/
def getProp (row : Row) (k : String) : JSVal :=
  match row.find? (fun p => p.1 = k) with
  | some p => p.2
  | none => .undefined

/-- The idiom `row.k1 || row.k2 || ... || dflt`: the first truthy property
wins, otherwise the literal default. -/
def orChain (row : Row) (keys : List String) (dflt : JSVal) : JSVal :=
  match keys with
  | [] => dflt
  | k :: ks =>
    let v := getProp row k
    if truthy v then v else orChain row ks dflt

/-- Whether `pre` is a leading segment of `l`. -/
def charsLeading : List Char → List Char → Bool
  | [], _ => true
  | _ :: _, [] => false
  | a :: as, b :: bs => a = b && charsLeading as bs

/-- Whether `sub` occurs contiguously somewhere in the second list. -/
def charsWithin (sub : List Char) : List Char → Bool
  | [] => sub.isEmpty
  | b :: bs => charsLeading sub (b :: bs) || charsWithin sub bs

/-- JavaScript `String.prototype.includes` (substring test). -/
def strIncludes (s sub : String) : Bool :=
  charsWithin sub.toList s.toList

/-- JavaScript `String.prototype.toLowerCase` on the ASCII range. -/
def toLowerStr (s : String) : String :=
  String.mk (s.toList.map Char.toLower)

/-- JS whitespace characters recognised by string trimming. -/
def isJsWs (c : Char) : Bool :=
  c = ' ' || c = '\t' || c = '\n' || c = '\r' || c = '\x0b' || c = '\x0c'

/-- Numeric value of a digit string (most significant first). -/
def digitsVal (ds : List Char) : ℕ :=
  ds.foldl (fun a c => 10 * a + (c.toNat - '0'.toNat)) 0

/-- Split off the leading run of decimal digits. -/
def takeDigits (cs : List Char) : List Char × List Char :=
  (cs.takeWhile Char.isDigit, cs.dropWhile Char.isDigit)

/-- Parse a `StrUnsignedDecimalLiteral` (digits, optional fraction,
optional exponent) at the front of `cs`, returning its exact value and
the unconsumed remainder; `none` when no digit is found.  The exponent
marker is consumed only when followed by at least one digit, as in JS. -/
def parseDecCore (cs : List Char) : Option (ℚ × List Char) :=
  let (ip, rest1) := takeDigits cs
  let (fp, rest2) :=
    match rest1 with
    | '.' :: t => takeDigits t
    | _ => ([], rest1)
  if ip.isEmpty && fp.isEmpty then none
  else
    let mant : ℚ := (digitsVal ip : ℚ) + (digitsVal fp : ℚ) / ((10 : ℚ) ^ fp.length)
    let (expo, rest3) :=
      match rest2 with
      | 'e' :: t | 'E' :: t =>
        let (esign, t2) :=
          match t with
          | '+' :: u => ((1 : ℤ), u)
          | '-' :: u => ((-1 : ℤ), u)
          | _ => ((1 : ℤ), t)
        let (eds, t3) := takeDigits t2
        if eds.isEmpty then ((0 : ℤ), rest2) else (esign * (digitsVal eds : ℤ), t3)
      | _ => ((0 : ℤ), rest2)
    some (mant * (10 : ℚ) ^ expo, rest3)

/-- ECMAScript `ToNumber` on strings, restricted to the decimal-literal
fragment the dashboard data can contain: `none` stands for the NaN
outcome (non-finite and non-decimal forms are collapsed into it, since
`num` below sends NaN to 0 anyway). The empty or all-whitespace string
converts to 0. -/
def stringToNumber (s : String) : Option ℚ :=
  let cs := (s.toList.dropWhile isJsWs).reverse.dropWhile isJsWs |>.reverse
  match cs with
  | [] => some 0
  | _ =>
    let (sgn, cs1) :=
      match cs with
      | '+' :: t => ((1 : ℚ), t)
      | '-' :: t => ((-1 : ℚ), t)
      | _ => ((1 : ℚ), cs)
    match parseDecCore cs1 with
    | some (q, []) => some (sgn * q)
    | _ => none

/-- ECMAScript `ToNumber` (`Number(v)`): `none` stands for NaN. -/
def toNumberJS : JSVal → Option ℚ
  | .num q => some q
  | .nan => none
  | .str s => stringToNumber s
  | .bool b => some (if b then 1 else 0)
  | .null => some 0
  | .undefined => none

/-- The helper `num(v)` of `app.js` (line 21): `Number(v)` with NaN
mapped to 0, a total coercion. -/
def num (v : JSVal) : ℚ :=
  (toNumberJS v).getD 0

/-- A JS number including the non-finite values, used for the startup
configuration constant where finiteness is at issue. -/
inductive JSNum where
  | fin (q : ℚ)
  | nan
  | inf (pos : Bool)
deriving DecidableEq, Repr

/-- Truthiness of a JS number: 0 and NaN are falsy, infinities truthy. -/
def jsNumTruthy : JSNum → Bool
  | .fin q => decide (q ≠ 0)
  | .nan => false
  | .inf _ => true

/-- JavaScript `parseFloat`: skip leading whitespace, optional sign, the
literal `Infinity`, else the longest valid decimal-literal prefix; NaN
when no digits can be consumed. -/
def parseFloat (s : String) : JSNum :=
  let cs := s.toList.dropWhile isJsWs
  let (pos, cs1) :=
    match cs with
    | '+' :: t => (true, t)
    | '-' :: t => (false, t)
    | _ => (true, cs)
  if charsLeading "Infinity".toList cs1 then .inf pos
  else
    match parseDecCore cs1 with
    | some (q, _) => .fin ((if pos then 1 else -1) * q)
    | none => .nan

/-- The startup constant of `app.js` (lines 7-11):
`cpdParam ? parseFloat(cpdParam) || 120 : 120`, where `cpdParam` is the
`cpd` URL parameter (`none` when absent, possibly the empty string). -/
def COST_PER_DELAY_DAY (cpdParam : Option String) : JSNum :=
  match cpdParam with
  | none => .fin 120
  | some s =>
    if s = "" then .fin 120
    else
      let p := parseFloat s
      if jsNumTruthy p then p else .fin 120

/-- Delay resolution used by `updateKPIs` and the carrier chart
(lines 54, 62, 68, 104, 761, 786): `num(row.actual_delay_days || row.DelayDays || 0)`. -/
def kpiDelayDays (row : Row) : ℚ :=
  num (orChain row ["actual_delay_days", "DelayDays"] (.num 0))

/-- Delay resolution used by `computeSavingsPotential` (line 33) and
`renderOutliersAndAnomalies`: `num(row.DelayDays || row.delay_days || row.delay || row.Delay || 0)`;
note that `actual_delay_days` is not probed here. -/
def savingsDelayDays (row : Row) : ℚ :=
  num (orChain row ["DelayDays", "delay_days", "delay", "Delay"] (.num 0))

/-- Carrier resolution (lines 103, 760):
`row.carrier_name || row.Carrier || row.carrier || 'Unknown'`. -/
def resolveCarrier (row : Row) : JSVal :=
  orChain row ["carrier_name", "Carrier", "carrier"] (.str "Unknown")

/-- Risk resolution (lines 223, 795):
`row.risk_level || row.RiskLevel || row.risk || row.ai_risk_score || 'Unknown'`. -/
def resolveRiskRaw (row : Row) : JSVal :=
  orChain row ["risk_level", "RiskLevel", "risk", "ai_risk_score"] (.str "Unknown")

/-- Mode resolution in `createModeEmissionsChart` (line 623):
`row.transport_mode || row.mode || row.Mode || 'Unknown'`. -/
def resolveMode (row : Row) : JSVal :=
  orChain row ["transport_mode", "mode", "Mode"] (.str "Unknown")

/-- Actual-emissions resolution (line 626):
`num(row.emissions_kg || row.EmissionsKg || row.carbon_emissions_kg || 0)`. -/
def emissionsRawKg (row : Row) : ℚ :=
  num (orChain row ["emissions_kg", "EmissionsKg", "carbon_emissions_kg"] (.num 0))

/-- Distance resolution in the emissions estimate (line 630):
`num(row.route_distance_km || row.distance_km || row.DistanceKm || 0)`. -/
def emissionsDistanceKm (row : Row) : ℚ :=
  num (orChain row ["route_distance_km", "distance_km", "DistanceKm"] (.num 0))

/-- Weight resolution (line 631): `num(row.weight_kg || row.WeightKg || 0)`. -/
def resolveWeightKg (row : Row) : ℚ :=
  num (orChain row ["weight_kg", "WeightKg"] (.num 0))

/-- Distance resolution in `renderInsights` (line 846) and the scatter
chart (line 358, with the last two keys swapped there). -/
def insightDistanceKm (row : Row) : ℚ :=
  num (orChain row ["route_distance_km", "distance_km", "DistanceKm"] (.num 0))

/-- Cost resolution (lines 359, 847):
`num(row.cost_usd || row.CostUSD || row.cost || 0)`. -/
def insightCostUsd (row : Row) : ℚ :=
  num (orChain row ["cost_usd", "CostUSD", "cost"] (.num 0))

/-- `computeSavingsPotential` (lines 27-38): sum of `delayDays × cpd` over
rows with positive resolved delay, 0 for an empty row set.  `cpd` is the
value of the startup constant when it is finite. -/
def computeSavingsPotential (cpd : ℚ) (rows : List Row) : ℚ :=
  if rows.length = 0 then 0
  else rows.foldl
    (fun sum row =>
      let delayDays := savingsDelayDays row
      sum + (if 0 < delayDays then delayDays * cpd else 0)) 0

/-- The KPI bundle computed by `updateKPIs` (lines 41-90), full-precision
(rounding happens only at the presentation boundary). -/
structure KPIs where
  totalShipments : ℕ
  onTimePct : ℚ
  avgDelay : ℚ
  savings : ℚ
  displaySavings : ℚ
deriving DecidableEq, Repr

/-- `updateKPIs` (lines 41-90): early return (`none`) on an empty row
set, otherwise count, on-time percentage, average delay over late
shipments (0 when none), savings, and the displayed savings with the
hard-coded demo value 187923 when the computed savings is not positive. -/
def updateKPIs (cpd : ℚ) (rows : List Row) : Option KPIs :=
  if rows.length = 0 then none
  else
    let totalShipments := rows.length
    let onTimeRows := rows.filter (fun row => kpiDelayDays row ≤ 0)
    let lateShipments := rows.filter (fun row => 0 < kpiDelayDays row)
    let avgDelay :=
      if 0 < lateShipments.length then
        ((lateShipments.map kpiDelayDays).sum) / (lateShipments.length : ℚ)
      else 0
    let savings := computeSavingsPotential cpd rows
    some
      { totalShipments := totalShipments
        onTimePct := ((onTimeRows.length : ℚ) / (totalShipments : ℚ)) * 100
        avgDelay := avgDelay
        savings := savings
        displaySavings := if 0 < savings then savings else 187923 }

/-- Risk normalization of `createRiskDistributionChart` (lines 225-265)
and `renderInsights` (lines 797-833).  For a string: case-insensitive
keyword containment first; otherwise `riskScore = num(riskLevel)` and the
numeric thresholds.  The source guards the thresholds with
`!isNaN(riskScore)`, but `num` maps NaN to 0, so the guard always passes
and the `normalizedRisk = riskLevel` fallback (line 251) is unreachable.
For a number: the thresholds directly (NaN fails every `<=`, giving
Critical).  Other types keep the initial value Unknown. -/
def classifyRisk : JSVal → String
  | .str s =>
    let lowerRisk := toLowerStr s
    if strIncludes lowerRisk "low" || lowerRisk = "l" then "Low"
    else if strIncludes lowerRisk "medium" || strIncludes lowerRisk "med" || lowerRisk = "m" then "Medium"
    else if strIncludes lowerRisk "high" || lowerRisk = "h" then "High"
    else if strIncludes lowerRisk "critical" || strIncludes lowerRisk "crit" then "Critical"
    else
      let riskScore := num (.str s)
      if riskScore ≤ 3/10 then "Low"
      else if riskScore ≤ 6/10 then "Medium"
      else if riskScore ≤ 8/10 then "High"
      else "Critical"
  | .num q =>
    if q ≤ 3/10 then "Low"
    else if q ≤ 6/10 then "Medium"
    else if q ≤ 8/10 then "High"
    else "Critical"
  | .nan => "Critical"
  | _ => "Unknown"

/-- Increment the histogram count of `k`, appending a fresh bucket in
first-seen position as a JS object literal does for its keys. -/
def bumpCount (acc : List (String × ℕ)) (k : String) : List (String × ℕ) :=
  match acc with
  | [] => [(k, 1)]
  | (k', n) :: rest => if k' = k then (k', n + 1) :: rest else (k', n) :: bumpCount rest k

/-- The risk histogram of `createRiskDistributionChart` (lines 220-268),
`(label, count)` pairs in first-appearance order. -/
def riskCounts (rows : List Row) : List (String × ℕ) :=
  rows.foldl (fun acc row => bumpCount acc (classifyRisk (resolveRiskRaw row))) []

/-- Add one shipment with delay `d` to the per-carrier accumulator
(`totalDelay` and `count` per carrier, first-seen order, lines 100-115). -/
def carrierUpd (acc : List (JSVal × ℚ × ℕ)) (c : JSVal) (d : ℚ) : List (JSVal × ℚ × ℕ) :=
  match acc with
  | [] => [(c, d, 1)]
  | (c', t, n) :: rest =>
    if c' = c then (c', t + d, n + 1) :: rest else (c', t, n) :: carrierUpd rest c d

/-- The `carrierData` grouping of `createDelayByCarrierChart`
(lines 100-115). -/
def carrierData (rows : List Row) : List (JSVal × ℚ × ℕ) :=
  rows.foldl (fun acc row => carrierUpd acc (resolveCarrier row) (kpiDelayDays row)) []

/-- `filteredCarriers` (lines 118-125): keep groups with at least 5
shipments, take the mean delay, sort descending by mean delay.  The JS
`sort` is stable, hence modelled by the (stable) insertion sort. -/
def filteredCarriers (rows : List Row) : List (JSVal × ℚ) :=
  List.insertionSort (fun a b => b.2 ≤ a.2)
    (((carrierData rows).filter (fun e => 5 ≤ e.2.2)).map
      (fun e => (e.1, e.2.1 / (e.2.2 : ℚ))))

/-- The `(distance, cost)` point list of `renderInsights` (lines 845-849)
restricted to positive coordinates; the scatter chart builds the same
set with an equivalent filter. -/
def validPoints (rows : List Row) : List (ℚ × ℚ) :=
  (rows.map (fun row => (insightDistanceKm row, insightCostUsd row))).filter
    (fun point => 0 < point.1 && 0 < point.2)

/-- The emission factor lookup `factors[mode] || factors.Road`
(lines 610-615, 635): g CO2 per ton-km, Road for unrecognized modes. -/
def modeFactor (mode : JSVal) : ℚ :=
  if mode = .str "Air" then 500
  else if mode = .str "Road" then 62
  else if mode = .str "Rail" then 22
  else if mode = .str "Sea" then 10
  else 62

/-- Per-row emissions of `createModeEmissionsChart` (lines 621-639):
actual value when positive, otherwise the estimate
`distanceKm * factor * tons / 1000` with `tons = weightKg/1000` when the
weight is positive and 1 otherwise. -/
def rowEmissionsKg (row : Row) : ℚ :=
  let emissionsKg := emissionsRawKg row
  if emissionsKg ≤ 0 then
    let distanceKm := emissionsDistanceKm row
    let weightKg := resolveWeightKg row
    let tons := if 0 < weightKg then weightKg / 1000 else 1
    let factor := modeFactor (resolveMode row)
    distanceKm * factor * tons / 1000
  else emissionsKg

/-- Add `v` to the running total of key `k` (JS object accumulation in
first-seen key order). -/
def bumpAdd (acc : List (JSVal × ℚ)) (k : JSVal) (v : ℚ) : List (JSVal × ℚ) :=
  match acc with
  | [] => [(k, v)]
  | (k', v') :: rest => if k' = k then (k', v' + v) :: rest else (k', v') :: bumpAdd rest k v

/-- The per-mode emission totals of `createModeEmissionsChart`
(lines 618-647). -/
def modeEmissions (rows : List Row) : List (JSVal × ℚ) :=
  rows.foldl (fun acc row => bumpAdd acc (resolveMode row) (rowEmissionsKg row)) []

/-- The running overall total of `createModeEmissionsChart`. -/
def totalEmissions (rows : List Row) : ℚ :=
  (rows.map rowEmissionsKg).sum

/-- `sumX` of `calculatePearsonCorrelation` (line 924). -/
def sumX (pts : List (ℚ × ℚ)) : ℚ := (pts.map Prod.fst).sum

/-- `sumY` (line 925). -/
def sumY (pts : List (ℚ × ℚ)) : ℚ := (pts.map Prod.snd).sum

/-- `sumXY` (line 926). -/
def sumXY (pts : List (ℚ × ℚ)) : ℚ := (pts.map (fun p => p.1 * p.2)).sum

/-- `sumX2` (line 927). -/
def sumX2 (pts : List (ℚ × ℚ)) : ℚ := (pts.map (fun p => p.1 * p.1)).sum

/-- `sumY2` (line 928). -/
def sumY2 (pts : List (ℚ × ℚ)) : ℚ := (pts.map (fun p => p.2 * p.2)).sum

/-- The numerator `n*sumXY - sumX*sumY` (line 930). -/
def pearsonNumer (pts : List (ℚ × ℚ)) : ℚ :=
  (pts.length : ℚ) * sumXY pts - sumX pts * sumY pts

/-- The squared denominator
`(n*sumX2 - sumX^2) * (n*sumY2 - sumY^2)` (line 931, inside the sqrt). -/
def pearsonDenomSq (pts : List (ℚ × ℚ)) : ℚ :=
  ((pts.length : ℚ) * sumX2 pts - sumX pts * sumX pts) *
    ((pts.length : ℚ) * sumY2 pts - sumY pts * sumY pts)

/-- `calculatePearsonCorrelation` (lines 917-934): 0 below 2 points,
0 when the square-root denominator is 0, else the exact quotient. -/
noncomputable def calculatePearsonCorrelation (pts : List (ℚ × ℚ)) : ℝ :=
  if pts.length < 2 then 0
  else if Real.sqrt ((pearsonDenomSq pts : ℚ) : ℝ) = 0 then 0
  else ((pearsonNumer pts : ℚ) : ℝ) / Real.sqrt ((pearsonDenomSq pts : ℚ) : ℝ)

open scoped Classical in
/-- The correlation insight of `renderInsights` (lines 845-858): emitted
only when at least 3 valid points exist and `|r| >= 0.3`; the pair holds
the strength word (`|r| >= 0.7` gives strong, else moderate) and the
direction word (`r > 0` gives positive, else negative). -/
noncomputable def correlationInsight (rows : List Row) : Option (String × String) :=
  let points := validPoints rows
  if 3 ≤ points.length then
    let correlation := calculatePearsonCorrelation points
    if 0.3 ≤ |correlation| then
      some ((if 0.7 ≤ |correlation| then "strong" else "moderate"),
            (if 0 < correlation then "positive" else "negative"))
    else none
  else none

/-- The rows of a given resolved carrier (the specification-side view of
the grouping). -/
def carrierRows (rows : List Row) (c : JSVal) : List Row :=
  rows.filter (fun r => resolveCarrier r = c)

/-- Number of shipments of carrier `c`. -/
def gCount (rows : List Row) (c : JSVal) : ℕ := (carrierRows rows c).length

/-- Total resolved delay of carrier `c`. -/
def gSum (rows : List Row) (c : JSVal) : ℚ := ((carrierRows rows c).map kpiDelayDays).sum

/-- Lookup of the accumulated `(totalDelay, count)` entry of a carrier. -/
def entryFor (acc : List (JSVal × ℚ × ℕ)) (c : JSVal) : Option (ℚ × ℕ) :=
  (acc.find? (fun e => e.1 = c)).map Prod.snd

/-- Concrete row set for the ranking witness: five shipments of carrier
A and one of carrier B. -/
def c6rows : List Row :=
  [[("carrier_name", JSVal.str "A"), ("actual_delay_days", JSVal.num 1)],
   [("carrier_name", JSVal.str "A"), ("actual_delay_days", JSVal.num 2)],
   [("carrier_name", JSVal.str "A"), ("actual_delay_days", JSVal.num 3)],
   [("carrier_name", JSVal.str "A"), ("actual_delay_days", JSVal.num 4)],
   [("carrier_name", JSVal.str "A"), ("actual_delay_days", JSVal.num 5)],
   [("carrier_name", JSVal.str "B"), ("actual_delay_days", JSVal.num 9)]]

/-- Concrete row set for the correlation witness: three rows on the
line cost = distance. -/
def c9rows : List Row :=
  [[("route_distance_km", JSVal.num 1), ("cost_usd", JSVal.num 1)],
   [("route_distance_km", JSVal.num 2), ("cost_usd", JSVal.num 2)],
   [("route_distance_km", JSVal.num 3), ("cost_usd", JSVal.num 3)]]

theorem orChain_eq_find (row : Row) (keys : List String) (dflt : JSVal) :
    orChain row keys dflt = (((keys.map (getProp row)).find? truthy).getD dflt) := by
  induction keys with
  | nil => rfl
  | cons k ks ih =>
    simp only [orChain, List.map_cons, List.find?_cons]
    cases h : truthy (getProp row k) <;> simp [h, ih]

/-- C1: the claim that a row key matching a candidate name
case-insensitively (or with underscores stripped) is accepted fails on
the code: resolution uses exact property access, so the key `CARRIER`
leaves the carrier at the default `Unknown` instead of `A`, and the key
`RouteDistanceKm` leaves the distance at the default 0 instead of 7. -/
theorem C1_counterexample :
    resolveCarrier [("CARRIER", JSVal.str "A")] = JSVal.str "Unknown" ∧
    JSVal.str "Unknown" ≠ JSVal.str "A" ∧
    insightDistanceKm [("RouteDistanceKm", JSVal.num 7)] = 0 := by
  refine ⟨by decide, by decide, by decide⟩

/-- C1 (amended): for every row and chain, resolution probes the fixed
candidate keys with exact, case-sensitive property access; the first
candidate whose value is truthy wins and otherwise the documented
default is returned.  `Carrier` resolves because it is literally in the
candidate list, while `CARRIER` and `RouteDistanceKm` match nothing and
give the defaults. -/
theorem C1_exact_key_resolution :
    (∀ (row : Row) (keys : List String) (dflt : JSVal),
      orChain row keys dflt = (((keys.map (getProp row)).find? truthy).getD dflt)) ∧
    resolveCarrier [("Carrier", JSVal.str "A")] = JSVal.str "A" ∧
    resolveCarrier [("CARRIER", JSVal.str "A")] = JSVal.str "Unknown" ∧
    insightDistanceKm [("RouteDistanceKm", JSVal.num 7)] = 0 ∧
    resolveCarrier [] = JSVal.str "Unknown" := by
  exact ⟨orChain_eq_find, by decide, by decide, by decide, by decide⟩

/-- C10: a present-but-falsy value of an earlier candidate key is skipped
and resolution falls through to the later candidates or the default:
`{actual_delay_days: 0, DelayDays: 5}` resolves the KPI delay to 5, and
`{risk_level: 0}` resolves the raw risk to the string `Unknown`. -/
theorem C10_falsy_fallthrough :
    (∀ (row : Row) (k : String) (ks : List String) (dflt : JSVal),
      truthy (getProp row k) = false →
        orChain row (k :: ks) dflt = orChain row ks dflt) ∧
    kpiDelayDays [("actual_delay_days", JSVal.num 0), ("DelayDays", JSVal.num 5)] = 5 ∧
    resolveRiskRaw [("risk_level", JSVal.num 0)] = JSVal.str "Unknown" := by
  refine ⟨fun row k ks dflt h => ?_, by decide, by decide⟩
  simp [orChain, h]

/-- C10 witness: the fall-through equation applied to the concrete row
with `actual_delay_days` present but 0. -/
theorem C10_witness :
    truthy (getProp [("actual_delay_days", JSVal.num 0), ("DelayDays", JSVal.num 5)]
      "actual_delay_days") = false ∧
    orChain [("actual_delay_days", JSVal.num 0), ("DelayDays", JSVal.num 5)]
        ["actual_delay_days", "DelayDays"] (.num 0) =
      orChain [("actual_delay_days", JSVal.num 0), ("DelayDays", JSVal.num 5)]
        ["DelayDays"] (.num 0) :=
  ⟨by decide, C10_falsy_fallthrough.1 _ "actual_delay_days" ["DelayDays"] (.num 0) (by decide)⟩

/-- C4: the claim fails on the code in two ways: the parameter `0`
parses to the finite number 0 but the constant falls back to 120
(`parseFloat(cpdParam) || 120` treats 0 as falsy), and the parameter
`Infinity` yields a non-finite constant instead of the 120 fallback. -/
theorem C4_counterexample :
    COST_PER_DELAY_DAY (some "0") = JSNum.fin 120 ∧
    JSNum.fin (120 : ℚ) ≠ JSNum.fin 0 ∧
    COST_PER_DELAY_DAY (some "Infinity") = JSNum.inf true ∧
    (∀ q : ℚ, JSNum.inf true ≠ JSNum.fin q) := by
  refine ⟨?_, by decide, by decide, fun q h => by cases h⟩
  simp +decide [COST_PER_DELAY_DAY, parseFloat, parseDecCore, takeDigits, digitsVal, isJsWs,
    charsLeading, jsNumTruthy, List.dropWhile_cons, List.dropWhile_nil, List.takeWhile_cons,
    List.takeWhile_nil]

/-- C4 (amended): the constant equals the parsed value exactly when the
parameter string is nonempty and its `parseFloat` value is truthy
(nonzero, possibly infinite); in every other case (absent, empty,
non-numeric, or parsing to 0) it falls back to 120.  In particular the
parameter `0` is not honoured and the constant is not always finite. -/
theorem C4_cpd_characterization :
    COST_PER_DELAY_DAY none = JSNum.fin 120 ∧
    COST_PER_DELAY_DAY (some "") = JSNum.fin 120 ∧
    (∀ s : String, s ≠ "" →
      COST_PER_DELAY_DAY (some s) =
        (if jsNumTruthy (parseFloat s) then parseFloat s else .fin 120)) ∧
    (∀ (s : String) (q : ℚ), parseFloat s = .fin q → q ≠ 0 →
      COST_PER_DELAY_DAY (some s) = .fin q) ∧
    (∀ (s : String) (b : Bool), parseFloat s = .inf b →
      COST_PER_DELAY_DAY (some s) = .inf b) ∧
    (∀ s : String, parseFloat s = .fin 0 → COST_PER_DELAY_DAY (some s) = .fin 120) ∧
    (∀ s : String, parseFloat s = .nan → COST_PER_DELAY_DAY (some s) = .fin 120) := by
  have hempty : parseFloat "" = JSNum.nan := by decide
  refine ⟨by decide, by decide, ?_, ?_, ?_, ?_, ?_⟩
  · intro s hs
    simp [COST_PER_DELAY_DAY, hs]
  · intro s q h hq
    by_cases hs : s = ""
    · subst hs; rw [hempty] at h; exact absurd h (by simp)
    · simp [COST_PER_DELAY_DAY, hs, h, jsNumTruthy, hq]
  · intro s b h
    by_cases hs : s = ""
    · subst hs; rw [hempty] at h; exact absurd h (by simp)
    · simp [COST_PER_DELAY_DAY, hs, h, jsNumTruthy]
  · intro s h
    by_cases hs : s = ""
    · simp [COST_PER_DELAY_DAY, hs]
    · simp [COST_PER_DELAY_DAY, hs, h, jsNumTruthy]
  · intro s h
    by_cases hs : s = ""
    · simp [COST_PER_DELAY_DAY, hs]
    · simp [COST_PER_DELAY_DAY, hs, h, jsNumTruthy]

/-- C4 witness: the override path applied to the concrete parameter 7. -/
theorem C4_witness :
    parseFloat "7" = JSNum.fin 7 ∧ (7 : ℚ) ≠ 0 ∧
    COST_PER_DELAY_DAY (some "7") = JSNum.fin 7 := by
  have h : parseFloat "7" = JSNum.fin 7 := by
    simp +decide [parseFloat, parseDecCore, takeDigits, digitsVal, isJsWs, charsLeading,
      List.dropWhile_cons, List.dropWhile_nil, List.takeWhile_cons, List.takeWhile_nil]
  exact ⟨h, by decide, C4_cpd_characterization.2.2.2.1 "7" 7 h (by decide)⟩

/-- C5: on the empty row set every aggregate returns its defined neutral
result — savings 0, KPI bundle omitted (early-return sentinel), empty
ranking/histogram/emission lists, total 0, no scatter points, Pearson 0
below two points, and no correlation insight — so no percentage or ratio
is ever formed from a 0/0. -/
theorem C5_empty_input :
    (∀ cpd : ℚ, computeSavingsPotential cpd [] = 0) ∧
    (∀ cpd : ℚ, updateKPIs cpd [] = none) ∧
    filteredCarriers [] = [] ∧
    riskCounts [] = [] ∧
    modeEmissions [] = [] ∧
    totalEmissions [] = 0 ∧
    validPoints [] = [] ∧
    calculatePearsonCorrelation [] = 0 ∧
    (∀ p : ℚ × ℚ, calculatePearsonCorrelation [p] = 0) ∧
    correlationInsight [] = none := by
  refine ⟨fun cpd => by simp [computeSavingsPotential],
    fun cpd => by simp [updateKPIs],
    by decide, by decide, by decide, by decide, by decide,
    by simp [calculatePearsonCorrelation],
    fun p => by simp [calculatePearsonCorrelation],
    by simp [correlationInsight, validPoints]⟩

/-- C2: on the two-row scenario the code computes onTimePct 50 and
average late delay 3 as claimed, but the savings potential is 0, not
360: `computeSavingsPotential` resolves the delay through
`DelayDays/delay_days/delay/Delay` and never probes
`actual_delay_days`, so the same row that `updateKPIs` counts as 3 days
late contributes nothing to the savings (the KPI then shows the
hard-coded demo value 187923). -/
theorem C2_scenario_eval :
    updateKPIs 120
        [[("actual_delay_days", JSVal.num 3), ("carrier_name", JSVal.str "A")],
         [("actual_delay_days", JSVal.num (-1)), ("carrier_name", JSVal.str "A")]] =
      some ⟨2, 50, 3, 0, 187923⟩ ∧
    computeSavingsPotential 120
        [[("actual_delay_days", JSVal.num 3), ("carrier_name", JSVal.str "A")],
         [("actual_delay_days", JSVal.num (-1)), ("carrier_name", JSVal.str "A")]] = 0 ∧
    (0 : ℚ) ≠ 360 ∧
    kpiDelayDays [("actual_delay_days", JSVal.num 3), ("carrier_name", JSVal.str "A")] = 3 ∧
    savingsDelayDays [("actual_delay_days", JSVal.num 3), ("carrier_name", JSVal.str "A")] = 0 := by
  refine ⟨?_, ?_, by decide, by decide, by decide⟩
  · simp +decide [updateKPIs, computeSavingsPotential, kpiDelayDays, savingsDelayDays, orChain,
      getProp, num, toNumberJS, truthy, List.filter_cons, List.filter_nil, List.find?]
    norm_num
  · simp +decide [computeSavingsPotential, savingsDelayDays, orChain, getProp, num, toNumberJS,
      truthy, List.find?]

/-- C3: keyword matching and numeric thresholding behave as claimed
(0.75 gives High, "medium risk" gives Medium), but the third stage never
happens: because `num` maps NaN to 0, the `!isNaN` guard before the
thresholds always passes, every value classifies into one of the five
fixed labels, and a non-keyword non-numeric string such as "banana" is
binned as Low (num gives 0 ≤ 0.3) instead of being preserved verbatim
as its own bucket. -/
theorem C3_risk_eval :
    (∀ v : JSVal,
      classifyRisk v ∈ (["Low", "Medium", "High", "Critical", "Unknown"] : List String)) ∧
    classifyRisk (resolveRiskRaw [("risk_level", JSVal.num (3/4))]) = "High" ∧
    classifyRisk (resolveRiskRaw [("risk_level", JSVal.str "medium risk")]) = "Medium" ∧
    classifyRisk (resolveRiskRaw [("risk_level", JSVal.str "banana")]) = "Low" ∧
    ("Low" : String) ≠ "banana" := by
  refine ⟨?_, ?_, ?_, ?_, by decide⟩
  · intro v
    cases v <;> simp only [classifyRisk] <;> (try split_ifs) <;> simp
  · have h : resolveRiskRaw [("risk_level", JSVal.num (3/4))] = JSVal.num (3/4) := by
      simp [resolveRiskRaw, orChain, getProp, truthy, List.find?]
    rw [h]
    simp only [classifyRisk]
    norm_num
  · simp +decide [resolveRiskRaw, orChain, getProp, truthy, List.find?, classifyRisk,
      strIncludes, charsWithin, charsLeading, toLowerStr]
  · simp +decide [resolveRiskRaw, orChain, getProp, truthy, List.find?, classifyRisk,
      strIncludes, charsWithin, charsLeading, toLowerStr, num, toNumberJS, stringToNumber,
      parseDecCore, takeDigits, digitsVal, isJsWs,
      List.dropWhile_cons, List.dropWhile_nil, List.takeWhile_cons, List.takeWhile_nil]
    norm_num

/-- C8: whenever the resolved actual emissions are not positive, the
per-row estimate is `distanceKm * modeFactor(mode) * tons / 1000` with
`tons = weightKg/1000` for positive weight and 1 otherwise; the factor
lookup is Air 500, Road 62, Rail 22, Sea 10 with Road for anything else,
and the Air/1000 km/2000 kg scenario row estimates to 1000 kg. -/
theorem C8_emissions_estimate :
    (∀ row : Row, emissionsRawKg row ≤ 0 →
      rowEmissionsKg row =
        emissionsDistanceKm row * modeFactor (resolveMode row) *
          (if 0 < resolveWeightKg row then resolveWeightKg row / 1000 else 1) / 1000) ∧
    modeFactor (.str "Air") = 500 ∧ modeFactor (.str "Road") = 62 ∧
    modeFactor (.str "Rail") = 22 ∧ modeFactor (.str "Sea") = 10 ∧
    (∀ m : JSVal, m ∉ ([.str "Air", .str "Road", .str "Rail", .str "Sea"] : List JSVal) →
      modeFactor m = 62) ∧
    rowEmissionsKg [("transport_mode", JSVal.str "Air"), ("route_distance_km", JSVal.num 1000),
      ("weight_kg", JSVal.num 2000)] = 1000 := by
  refine ⟨?_, by decide, by decide, by decide, by decide, ?_, ?_⟩
  · intro row h
    simp [rowEmissionsKg, h]
  · intro m hm
    simp only [List.mem_cons, List.mem_singleton, not_or] at hm
    simp [modeFactor, hm.1, hm.2.1, hm.2.2.1, hm.2.2.2]
  · simp +decide [rowEmissionsKg, emissionsRawKg, emissionsDistanceKm, resolveWeightKg,
      resolveMode, modeFactor, orChain, getProp, num, toNumberJS, truthy, List.find?]
    norm_num

/-- C8 witness: the estimation equation applied to the concrete Air row
with 1000 km and 2000 kg and no actual emissions value. -/
theorem C8_witness :
    emissionsRawKg [("transport_mode", JSVal.str "Air"), ("route_distance_km", JSVal.num 1000),
      ("weight_kg", JSVal.num 2000)] ≤ 0 ∧
    rowEmissionsKg [("transport_mode", JSVal.str "Air"), ("route_distance_km", JSVal.num 1000),
        ("weight_kg", JSVal.num 2000)] =
      emissionsDistanceKm [("transport_mode", JSVal.str "Air"),
          ("route_distance_km", JSVal.num 1000), ("weight_kg", JSVal.num 2000)] *
        modeFactor (resolveMode [("transport_mode", JSVal.str "Air"),
          ("route_distance_km", JSVal.num 1000), ("weight_kg", JSVal.num 2000)]) *
        (if 0 < resolveWeightKg [("transport_mode", JSVal.str "Air"),
            ("route_distance_km", JSVal.num 1000), ("weight_kg", JSVal.num 2000)] then
          resolveWeightKg [("transport_mode", JSVal.str "Air"),
            ("route_distance_km", JSVal.num 1000), ("weight_kg", JSVal.num 2000)] / 1000
        else 1) / 1000 := by
  have h : emissionsRawKg [("transport_mode", JSVal.str "Air"),
      ("route_distance_km", JSVal.num 1000), ("weight_kg", JSVal.num 2000)] ≤ 0 := by decide
  exact ⟨h, C8_emissions_estimate.1 _ h⟩

theorem entryFor_nil (c : JSVal) : entryFor [] c = none := rfl

theorem entryFor_cons (e : JSVal × ℚ × ℕ) (rest : List (JSVal × ℚ × ℕ)) (c : JSVal) :
    entryFor (e :: rest) c = if e.1 = c then some e.2 else entryFor rest c := by
  by_cases h : e.1 = c <;> simp [entryFor, List.find?_cons, h]

theorem entryFor_carrierUpd (acc : List (JSVal × ℚ × ℕ)) (c : JSVal) (d : ℚ) (c' : JSVal) :
    entryFor (carrierUpd acc c d) c' =
      if c' = c then
        some (match entryFor acc c with
              | some (t, n) => (t + d, n + 1)
              | none => (d, 1))
      else entryFor acc c' := by
  induction acc with
  | nil =>
    by_cases h : c' = c
    · simp [carrierUpd, entryFor_cons, entryFor_nil, h]
    · have h2 : ¬ c = c' := fun hh => h hh.symm
      simp [carrierUpd, entryFor_cons, entryFor_nil, h, h2]
  | cons e rest ih =>
    obtain ⟨c0, t, n⟩ := e
    by_cases h0 : c0 = c
    · subst h0
      by_cases h : c' = c0
      · subst h
        simp [carrierUpd, entryFor_cons]
      · have h2 : ¬ c0 = c' := fun hh => h hh.symm
        simp [carrierUpd, entryFor_cons, h, h2]
    · have hupd : carrierUpd ((c0, t, n) :: rest) c d = (c0, t, n) :: carrierUpd rest c d := by
        simp [carrierUpd, h0]
      rw [hupd, entryFor_cons, entryFor_cons, ih]
      by_cases h1 : c0 = c'
      · subst h1
        simp [h0, entryFor_cons]
      · simp [h0, h1, entryFor_cons]

theorem carrierRows_cons (r : Row) (rows : List Row) (c : JSVal) :
    carrierRows (r :: rows) c =
      if resolveCarrier r = c then r :: carrierRows rows c else carrierRows rows c := by
  by_cases h : resolveCarrier r = c <;> simp [carrierRows, List.filter_cons, h]

theorem entryFor_foldl (rows : List Row) (acc : List (JSVal × ℚ × ℕ)) (c : JSVal) :
    entryFor (rows.foldl
        (fun acc row => carrierUpd acc (resolveCarrier row) (kpiDelayDays row)) acc) c =
      match entryFor acc c with
      | some (t, n) => some (t + gSum rows c, n + gCount rows c)
      | none => if gCount rows c = 0 then none else some (gSum rows c, gCount rows c) := by
  induction rows generalizing acc with
  | nil =>
    simp only [List.foldl_nil]
    cases h : entryFor acc c with
    | none => simp [gCount, gSum, carrierRows]
    | some e => obtain ⟨t, n⟩ := e; simp [gCount, gSum, carrierRows]
  | cons r rest ih =>
    simp only [List.foldl_cons]
    rw [ih]
    rw [entryFor_carrierUpd]
    have hg : gCount (r :: rest) c =
        (if resolveCarrier r = c then 1 else 0) + gCount rest c := by
      by_cases h : resolveCarrier r = c <;>
        simp [gCount, carrierRows_cons, h, Nat.add_comm]
    have hs : gSum (r :: rest) c =
        (if resolveCarrier r = c then kpiDelayDays r else 0) + gSum rest c := by
      by_cases h : resolveCarrier r = c <;> simp [gSum, carrierRows_cons, h]
    by_cases h : c = resolveCarrier r
    · subst h
      rw [if_pos rfl]
      cases he : entryFor acc (resolveCarrier r) with
      | none =>
        simp [he, hg, hs, add_comm]
      | some e =>
        obtain ⟨t, n⟩ := e
        simp [he, hg, hs, add_assoc]
    · have h' : ¬ resolveCarrier r = c := fun hh => h hh.symm
      rw [if_neg h]
      simp [hg, hs, h']

theorem entryFor_carrierData (rows : List Row) (c : JSVal) :
    entryFor (carrierData rows) c =
      if gCount rows c = 0 then none else some (gSum rows c, gCount rows c) := by
  simpa [carrierData, entryFor_nil] using entryFor_foldl rows [] c

theorem keys_carrierUpd (acc : List (JSVal × ℚ × ℕ)) (c : JSVal) (d : ℚ) :
    (carrierUpd acc c d).map Prod.fst =
      if c ∈ acc.map Prod.fst then acc.map Prod.fst else acc.map Prod.fst ++ [c] := by
  induction acc with
  | nil => simp [carrierUpd]
  | cons e rest ih =>
    obtain ⟨c0, t, n⟩ := e
    by_cases h0 : c0 = c
    · subst h0; simp [carrierUpd]
    · have h0' : ¬ c = c0 := fun hh => h0 hh.symm
      simp only [carrierUpd, if_neg h0, List.map_cons, List.mem_cons, h0', false_or, ih]
      by_cases hm : c ∈ rest.map Prod.fst <;> simp [hm]

theorem nodup_keys_carrierUpd (acc : List (JSVal × ℚ × ℕ)) (c : JSVal) (d : ℚ)
    (h : (acc.map Prod.fst).Nodup) : ((carrierUpd acc c d).map Prod.fst).Nodup := by
  rw [keys_carrierUpd]
  by_cases hm : c ∈ acc.map Prod.fst
  · simpa [hm] using h
  · rw [if_neg hm]
    refine List.nodup_append.mpr ⟨h, List.nodup_singleton c, ?_⟩
    intro a ha hac
    exact hm (List.mem_singleton.mp hac ▸ ha)

theorem nodup_keys_carrierData (rows : List Row) :
    ((carrierData rows).map Prod.fst).Nodup := by
  suffices h : ∀ acc : List (JSVal × ℚ × ℕ), (acc.map Prod.fst).Nodup →
      (((rows.foldl (fun acc row => carrierUpd acc (resolveCarrier row) (kpiDelayDays row))
        acc)).map Prod.fst).Nodup by
    simpa [carrierData] using h [] (by simp)
  induction rows with
  | nil => intro acc h; simpa
  | cons r rest ih =>
    intro acc h
    simp only [List.foldl_cons]
    exact ih _ (nodup_keys_carrierUpd _ _ _ h)

theorem entryFor_of_mem (acc : List (JSVal × ℚ × ℕ)) (h : (acc.map Prod.fst).Nodup)
    (c : JSVal) (e : ℚ × ℕ) (hm : (c, e) ∈ acc) : entryFor acc c = some e := by
  induction acc with
  | nil => cases hm
  | cons e0 rest ih =>
    obtain ⟨c0, e0v⟩ := e0
    simp only [List.map_cons, List.nodup_cons] at h
    rcases List.mem_cons.mp hm with heq | hmem
    · cases heq; simp [entryFor_cons]
    · have hkey : c ∈ rest.map Prod.fst := by
        simpa using List.mem_map_of_mem Prod.fst hmem
      have hne : ¬ c0 = c := fun hh => h.1 (hh ▸ hkey)
      rw [entryFor_cons]
      simpa [hne] using ih h.2 hmem

theorem mem_of_entryFor (acc : List (JSVal × ℚ × ℕ)) (c : JSVal) (e : ℚ × ℕ)
    (h : entryFor acc c = some e) : (c, e) ∈ acc := by
  unfold entryFor at h
  cases hf : acc.find? (fun x => x.1 = c) with
  | none => rw [hf] at h; cases h
  | some p =>
    rw [hf] at h
    have hp := List.find?_some hf
    have hpm := List.mem_of_find?_eq_some hf
    obtain ⟨p1, p2⟩ := p
    simp only [Option.map_some', Option.some.injEq] at h
    simp only [decide_eq_true_eq] at hp
    subst hp
    subst h
    exact hpm

/-- C6: the carrier ranking contains exactly the carriers with at least
5 shipments, each paired with the mean of its resolved delay values,
and is listed in descending order of that mean (stable for ties). -/
theorem C6_carrier_ranking (rows : List Row) :
    (∀ (c : JSVal) (a : ℚ), (c, a) ∈ filteredCarriers rows →
      5 ≤ gCount rows c ∧ a = gSum rows c / (gCount rows c : ℚ)) ∧
    (∀ c : JSVal, 5 ≤ gCount rows c →
      (c, gSum rows c / (gCount rows c : ℚ)) ∈ filteredCarriers rows) ∧
    (filteredCarriers rows).Pairwise (fun a b => b.2 ≤ a.2) := by
  haveI htot : IsTotal (JSVal × ℚ) (fun a b => b.2 ≤ a.2) := ⟨fun a b => le_total b.2 a.2⟩
  haveI htr : IsTrans (JSVal × ℚ) (fun a b => b.2 ≤ a.2) :=
    ⟨fun a b c hab hbc => le_trans hbc hab⟩
  refine ⟨?_, ?_, ?_⟩
  · intro c a hmem
    rw [filteredCarriers] at hmem
    rw [(List.perm_insertionSort _ _).mem_iff] at hmem
    obtain ⟨e, he, hfe⟩ := List.mem_map.mp hmem
    obtain ⟨c1, t, n⟩ := e
    have hef := List.mem_filter.mp he
    have h5 : 5 ≤ n := by simpa using hef.2
    cases hfe
    have hE := entryFor_of_mem _ (nodup_keys_carrierData rows) _ _ hef.1
    rw [entryFor_carrierData] at hE
    by_cases hg : gCount rows c1 = 0
    · rw [if_pos hg] at hE; cases hE
    · rw [if_neg hg] at hE
      simp only [Option.some.injEq, Prod.mk.injEq] at hE
      refine ⟨hE.2 ▸ h5, ?_⟩
      rw [← hE.1, ← hE.2]
  · intro c h5
    have hg : gCount rows c ≠ 0 := by omega
    have hE : entryFor (carrierData rows) c = some (gSum rows c, gCount rows c) := by
      rw [entryFor_carrierData, if_neg hg]
    have hmem := mem_of_entryFor _ _ _ hE
    rw [filteredCarriers, (List.perm_insertionSort _ _).mem_iff]
    refine List.mem_map.mpr ⟨(c, gSum rows c, gCount rows c), ?_, rfl⟩
    exact List.mem_filter.mpr ⟨hmem, by simpa using h5⟩
  · exact List.sorted_insertionSort _ _

/-- C6 witness: the ranking membership applied to six concrete rows,
five of carrier A (delays 1..5, mean 3) and one of carrier B. -/
theorem C6_witness :
    5 ≤ gCount c6rows (JSVal.str "A") ∧
    (JSVal.str "A", gSum c6rows (JSVal.str "A") / (gCount c6rows (JSVal.str "A") : ℚ)) ∈
      filteredCarriers c6rows :=
  ⟨by decide, (C6_carrier_ranking c6rows).2.1 (JSVal.str "A") (by decide)⟩

theorem listSum_map_eq {α : Type} (l : List α) (f : α → ℚ) (d : α) :
    (l.map f).sum = ∑ i in Finset.range l.length, f (l.getD i d) := by
  induction l with
  | nil => simp
  | cons a t ih =>
    rw [List.map_cons, List.sum_cons, ih, List.length_cons, Finset.sum_range_succ']
    simp [List.getD_cons_succ, List.getD_cons_zero, add_comm]

theorem centered_sum (n : ℕ) (x y : ℕ → ℚ) :
    ∑ i in Finset.range n, (((n : ℚ) * x i - ∑ j in Finset.range n, x j) *
      ((n : ℚ) * y i - ∑ j in Finset.range n, y j)) =
    (n : ℚ) * ((n : ℚ) * (∑ i in Finset.range n, x i * y i) -
      (∑ i in Finset.range n, x i) * (∑ i in Finset.range n, y i)) := by
  have expand : ∀ i ∈ Finset.range n,
      ((n : ℚ) * x i - ∑ j in Finset.range n, x j) *
        ((n : ℚ) * y i - ∑ j in Finset.range n, y j) =
        (n : ℚ) ^ 2 * (x i * y i) - ((n : ℚ) * (∑ j in Finset.range n, y j)) * x i -
          ((n : ℚ) * (∑ j in Finset.range n, x j)) * y i +
          (∑ j in Finset.range n, x j) * (∑ j in Finset.range n, y j) := by
    intro i _
    ring
  rw [Finset.sum_congr rfl expand]
  rw [Finset.sum_add_distrib, Finset.sum_sub_distrib, Finset.sum_sub_distrib,
    ← Finset.mul_sum, ← Finset.mul_sum, ← Finset.mul_sum, Finset.sum_const,
    Finset.card_range, nsmul_eq_mul]
  ring

theorem cs_discrete (n : ℕ) (x y : ℕ → ℚ) :
    ((n : ℚ) * (∑ i in Finset.range n, x i * y i) -
        (∑ i in Finset.range n, x i) * (∑ i in Finset.range n, y i)) ^ 2 ≤
      ((n : ℚ) * (∑ i in Finset.range n, x i * x i) -
          (∑ i in Finset.range n, x i) * (∑ i in Finset.range n, x i)) *
        ((n : ℚ) * (∑ i in Finset.range n, y i * y i) -
          (∑ i in Finset.range n, y i) * (∑ i in Finset.range n, y i)) := by
  rcases Nat.eq_zero_or_pos n with hn | hn
  · subst hn; simp
  have hcs := Finset.sum_mul_sq_le_sq_mul_sq (Finset.range n)
    (fun i => (n : ℚ) * x i - ∑ j in Finset.range n, x j)
    (fun i => (n : ℚ) * y i - ∑ j in Finset.range n, y j)
  have hxy := centered_sum n x y
  have hxx := centered_sum n x x
  have hyy := centered_sum n y y
  have hsq : ∀ f : ℕ → ℚ, ∑ i in Finset.range n, (f i) ^ 2 = ∑ i in Finset.range n, f i * f i := by
    intro f
    exact Finset.sum_congr rfl (fun i _ => sq (f i) ▸ by ring)
  rw [hxy] at hcs
  rw [hsq, hsq] at hcs
  rw [hxx, hyy] at hcs
  have hn2 : (0 : ℚ) < (n : ℚ) ^ 2 := by positivity
  have key : (n : ℚ) ^ 2 *
      (((n : ℚ) * (∑ i in Finset.range n, x i * y i) -
        (∑ i in Finset.range n, x i) * (∑ i in Finset.range n, y i)) ^ 2) ≤
      (n : ℚ) ^ 2 *
      (((n : ℚ) * (∑ i in Finset.range n, x i * x i) -
          (∑ i in Finset.range n, x i) * (∑ i in Finset.range n, x i)) *
        ((n : ℚ) * (∑ i in Finset.range n, y i * y i) -
          (∑ i in Finset.range n, y i) * (∑ i in Finset.range n, y i))) := by
    linear_combination hcs
  exact (mul_le_mul_left hn2).mp key

theorem pearson_sq_le (pts : List (ℚ × ℚ)) :
    (pearsonNumer pts) ^ 2 ≤ pearsonDenomSq pts := by
  have hx := listSum_map_eq pts Prod.fst ((0 : ℚ), (0 : ℚ))
  have hy := listSum_map_eq pts Prod.snd ((0 : ℚ), (0 : ℚ))
  have hxy := listSum_map_eq pts (fun p => p.1 * p.2) ((0 : ℚ), (0 : ℚ))
  have hx2 := listSum_map_eq pts (fun p => p.1 * p.1) ((0 : ℚ), (0 : ℚ))
  have hy2 := listSum_map_eq pts (fun p => p.2 * p.2) ((0 : ℚ), (0 : ℚ))
  rw [pearsonNumer, pearsonDenomSq, sumX, sumY, sumXY, sumX2, sumY2, hx, hy, hxy, hx2, hy2]
  exact cs_discrete pts.length (fun i => (pts.getD i ((0 : ℚ), (0 : ℚ))).1)
    (fun i => (pts.getD i ((0 : ℚ), (0 : ℚ))).2)

/-- C7: the Pearson function returns 0 below two points, returns 0 when
the squared joint-variance denominator vanishes (no division by zero is
ever performed), and always satisfies the bound |r| <= 1 (by the
Cauchy-Schwarz inequality applied to the centered series). -/
theorem C7_pearson_bounds (pts : List (ℚ × ℚ)) :
    (pts.length < 2 → calculatePearsonCorrelation pts = 0) ∧
    (pearsonDenomSq pts = 0 → calculatePearsonCorrelation pts = 0) ∧
    |calculatePearsonCorrelation pts| ≤ 1 := by
  refine ⟨fun h => by simp [calculatePearsonCorrelation, h], fun h => ?_, ?_⟩
  · by_cases h1 : pts.length < 2
    · simp [calculatePearsonCorrelation, h1]
    · simp [calculatePearsonCorrelation, h1, h]
  · by_cases h1 : pts.length < 2
    · simp [calculatePearsonCorrelation, h1]
    · by_cases h2 : Real.sqrt ((pearsonDenomSq pts : ℚ) : ℝ) = 0
      · simp [calculatePearsonCorrelation, h1, h2]
      · simp only [calculatePearsonCorrelation, if_neg h1, if_neg h2]
        have hD : 0 < Real.sqrt ((pearsonDenomSq pts : ℚ) : ℝ) :=
          lt_of_le_of_ne (Real.sqrt_nonneg _) (Ne.symm h2)
        rw [abs_div, abs_of_pos hD, div_le_one hD]
        have hsq : (((pearsonNumer pts : ℚ) : ℝ)) ^ 2 ≤ ((pearsonDenomSq pts : ℚ) : ℝ) := by
          have h := pearson_sq_le pts
          exact_mod_cast h
        calc |((pearsonNumer pts : ℚ) : ℝ)|
            = Real.sqrt ((((pearsonNumer pts : ℚ) : ℝ)) ^ 2) := (Real.sqrt_sq_eq_abs _).symm
          _ ≤ Real.sqrt ((pearsonDenomSq pts : ℚ) : ℝ) := Real.sqrt_le_sqrt hsq

/-- C7 witness: the degenerate single point discharges both the
under-two-points and the zero-denominator hypotheses. -/
theorem C7_witness :
    ([((1 : ℚ), (1 : ℚ))].length < 2) ∧
    calculatePearsonCorrelation [((1 : ℚ), (1 : ℚ))] = 0 ∧
    pearsonDenomSq [((1 : ℚ), (1 : ℚ))] = 0 ∧
    |calculatePearsonCorrelation [((1 : ℚ), (1 : ℚ))]| ≤ 1 := by
  have hlen : ([((1 : ℚ), (1 : ℚ))].length < 2) := by norm_num
  have hd : pearsonDenomSq [((1 : ℚ), (1 : ℚ))] = 0 := by
    norm_num [pearsonDenomSq, sumX, sumY, sumX2, sumY2]
  exact ⟨hlen, (C7_pearson_bounds _).1 hlen, hd, (C7_pearson_bounds _).2.2⟩

/-- C9: the correlation sentence is emitted exactly when at least 3
valid points exist and |r| >= 0.3; its strength word is strong exactly
when |r| >= 0.7 and moderate otherwise, and its direction word is
positive exactly when r > 0 and negative otherwise (under emission
r is nonzero, so this is the sign of r). -/
theorem C9_correlation_insight (rows : List Row) :
    ((correlationInsight rows).isSome ↔
      (3 ≤ (validPoints rows).length ∧
        (0.3 : ℝ) ≤ |calculatePearsonCorrelation (validPoints rows)|)) ∧
    (∀ s d : String, correlationInsight rows = some (s, d) →
      ((s = "strong" ↔ (0.7 : ℝ) ≤ |calculatePearsonCorrelation (validPoints rows)|) ∧
       (s = "moderate" ↔ |calculatePearsonCorrelation (validPoints rows)| < 0.7) ∧
       (d = "positive" ↔ 0 < calculatePearsonCorrelation (validPoints rows)) ∧
       (d = "negative" ↔ calculatePearsonCorrelation (validPoints rows) ≤ 0))) := by
  constructor
  · by_cases h3 : 3 ≤ (validPoints rows).length
    · by_cases hr : (0.3 : ℝ) ≤ |calculatePearsonCorrelation (validPoints rows)|
      · simp [correlationInsight, h3, hr]
      · simp [correlationInsight, h3, hr]
    · simp [correlationInsight, h3]
  · intro s d heq
    by_cases h3 : 3 ≤ (validPoints rows).length
    · by_cases hr : (0.3 : ℝ) ≤ |calculatePearsonCorrelation (validPoints rows)|
      · simp only [correlationInsight, if_pos h3, if_pos hr, Option.some.injEq,
          Prod.mk.injEq] at heq
        obtain ⟨hs, hd⟩ := heq
        subst hs
        subst hd
        by_cases h7 : (0.7 : ℝ) ≤ |calculatePearsonCorrelation (validPoints rows)| <;>
          by_cases h0 : 0 < calculatePearsonCorrelation (validPoints rows) <;>
            simp [h7, h0, not_le, not_lt] <;>
              first
                | exact le_of_not_lt h0
                | exact not_le.mp h7
                | exact ⟨not_le.mp h7, le_of_not_lt h0⟩
      · rw [correlationInsight] at heq
        simp only [if_pos h3, if_neg hr] at heq
        cases heq
    · rw [correlationInsight] at heq
      simp only [if_neg h3] at heq
      cases heq

theorem pearson_line_example :
    calculatePearsonCorrelation [((1 : ℚ), (1 : ℚ)), (2, 2), (3, 3)] = 1 := by
  have hnum : pearsonNumer [((1 : ℚ), (1 : ℚ)), (2, 2), (3, 3)] = 6 := by
    norm_num [pearsonNumer, sumXY, sumX, sumY]
  have hden : pearsonDenomSq [((1 : ℚ), (1 : ℚ)), (2, 2), (3, 3)] = 36 := by
    norm_num [pearsonDenomSq, sumX2, sumY2, sumX, sumY]
  have hlen : ¬ (([((1 : ℚ), (1 : ℚ)), (2, 2), (3, 3)] : List (ℚ × ℚ)).length < 2) := by
    norm_num
  have hsqrt : Real.sqrt ((((36 : ℚ)) : ℝ)) = 6 := by
    rw [show (((36 : ℚ)) : ℝ) = (6 : ℝ) ^ 2 by norm_num, Real.sqrt_sq (by norm_num)]
  rw [calculatePearsonCorrelation]
  rw [if_neg hlen, hden, hnum, hsqrt]
  rw [if_neg (by norm_num)]
  norm_num

theorem validPoints_c9rows :
    validPoints c9rows = [((1 : ℚ), (1 : ℚ)), (2, 2), (3, 3)] := by decide

theorem correlationInsight_c9rows :
    correlationInsight c9rows = some ("strong", "positive") := by
  have hv := validPoints_c9rows
  rw [correlationInsight]
  rw [hv, pearson_line_example]
  rw [if_pos (by norm_num : 3 ≤ ([((1 : ℚ), (1 : ℚ)), (2, 2), (3, 3)] : List (ℚ × ℚ)).length)]
  rw [if_pos (by norm_num : (0.3 : ℝ) ≤ |(1 : ℝ)|)]
  rw [if_pos (by norm_num : (0.7 : ℝ) ≤ |(1 : ℝ)|)]
  rw [if_pos (by norm_num : (0 : ℝ) < 1)]

/-- C9 witness: the three collinear rows emit the strong positive
sentence, and the theorem recovers |r| >= 0.7 and r > 0 from it. -/
theorem C9_witness :
    correlationInsight c9rows = some ("strong", "positive") ∧
    (0.7 : ℝ) ≤ |calculatePearsonCorrelation (validPoints c9rows)| ∧
    0 < calculatePearsonCorrelation (validPoints c9rows) :=
  ⟨correlationInsight_c9rows,
    ((C9_correlation_insight c9rows).2 "strong" "positive" correlationInsight_c9rows).1.mp rfl,
    ((C9_correlation_insight c9rows).2 "strong" "positive"
      correlationInsight_c9rows).2.2.1.mp rfl⟩
